import Mathlib

/-!
# Verification of the broker-etrade adapter

Shallow embedding of the broker-etrade repository (src/etrade.rs, src/lib.rs):
the OAuth 1.0a signer (percent-encoding, parameter sorting, HMAC-SHA1,
base64, Authorization-header rendering) and the schema-normalization /
plugin layer, together with theorems settling the specification claims.

Strings handled by the OAuth layer are modelled as lists of bytes
(`List Nat`, each entry `< 256`), since the Rust code operates on
`str::bytes()`.  Machine integers are modelled as `Nat` with explicit
`% 2^w` where wraparound matters.  The vendor's `f64` monetary fields are
modelled as `Rat`: the code performs no floating-point arithmetic on them,
it only moves them and substitutes the constant `0.0`.
-/

namespace BrokerEtrade

/-- Byte strings: each element is a byte value (< 256). -/
abbrev Bytes := List Nat

/-- UTF-8 bytes of an ASCII string literal (all literals used are ASCII,
for which the code points coincide with the UTF-8 bytes). -/
def ascii (s : String) : Bytes := s.data.map Char.toNat

/-- Truncation to a 32-bit word, as performed by `u32` wraparound. -/
def w32 (n : Nat) : Nat := n % 4294967296

/-- 32-bit rotate left by 1 (argument assumed `< 2^32`). -/
def rotl1 (x : Nat) : Nat := (2 * x + x / 2147483648) % 4294967296

/-- 32-bit rotate left by 5 (argument assumed `< 2^32`). -/
def rotl5 (x : Nat) : Nat := (32 * x + x / 134217728) % 4294967296

/-- 32-bit rotate left by 30 (argument assumed `< 2^32`). -/
def rotl30 (x : Nat) : Nat := (1073741824 * x + x / 4) % 4294967296

/-- SHA-1 round function `f` (FIPS 180-4). -/
def sha1F (i b c d : Nat) : Nat :=
  if i < 20 then (b &&& c) ||| ((b ^^^ 4294967295) &&& d)
  else if i < 40 then b ^^^ c ^^^ d
  else if i < 60 then (b &&& c) ||| (b &&& d) ||| (c &&& d)
  else b ^^^ c ^^^ d

/-- SHA-1 round constants. -/
def sha1K (i : Nat) : Nat :=
  if i < 20 then 1518500249
  else if i < 40 then 1859775393
  else if i < 60 then 2400959708
  else 3395469782

/-- Message-schedule extension: generates `n` further words from a sliding
window of the 16 most recent words (oldest first),
`w[i] = rotl1 (w[i-3] xor w[i-8] xor w[i-14] xor w[i-16])`. -/
def sha1ExtendWords : Nat → List Nat → List Nat
  | 0, _ => []
  | n + 1, window =>
    let w := rotl1 ((window.getD 13 0) ^^^ (window.getD 8 0) ^^^
                    (window.getD 2 0) ^^^ (window.getD 0 0))
    w :: sha1ExtendWords n (window.drop 1 ++ [w])

/-- Full 80-word message schedule of one block (16 words). -/
def sha1Schedule (block : List Nat) : List Nat :=
  block ++ sha1ExtendWords 64 block

/-- The 80 SHA-1 rounds over the scheduled words, with round index `i` and
working state `a b c d e` carried as explicit arguments. -/
def sha1Rounds : Nat → List Nat → Nat → Nat → Nat → Nat → Nat → Nat × Nat × Nat × Nat × Nat
  | _, [], a, b, c, d, e => (a, b, c, d, e)
  | i, w :: ws, a, b, c, d, e =>
    sha1Rounds (i + 1) ws (w32 (rotl5 a + sha1F i b c d + e + sha1K i + w)) a (rotl30 b) c d

/-- SHA-1 compression of one 16-word block into the running state. -/
def sha1Compress (h : Nat × Nat × Nat × Nat × Nat) (block : List Nat) :
    Nat × Nat × Nat × Nat × Nat :=
  let (h0, h1, h2, h3, h4) := h
  let (a, b, c, d, e) := sha1Rounds 0 (sha1Schedule block) h0 h1 h2 h3 h4
  (w32 (h0 + a), w32 (h1 + b), w32 (h2 + c), w32 (h3 + d), w32 (h4 + e))

/-- Big-endian byte rendering of a value into `n` bytes. -/
def toBytesBE : Nat → Nat → List Nat
  | 0, _ => []
  | n + 1, v => toBytesBE n (v / 256) ++ [v % 256]

/-- SHA-1 padding: `0x80`, zeros to 56 mod 64, 64-bit big-endian bit length. -/
def sha1Pad (msg : List Nat) : List Nat :=
  let len := msg.length
  let padLen := (119 - len % 64) % 64
  msg ++ [128] ++ List.replicate padLen 0 ++
    toBytesBE 8 (8 * len % 18446744073709551616)

/-- Fuel-driven worker for `chunks64`; the fuel is an upper bound on the
number of chunks still to produce, so that the recursion is structural
(and hence reduces definitionally in the kernel). -/
def chunks64Go : Nat → List Nat → List (List Nat)
  | 0, _ => []
  | fuel + 1, l => if l = [] then [] else l.take 64 :: chunks64Go fuel (l.drop 64)

/-- Splits a list into 64-element chunks.  `l.length` is always enough
fuel: every step consumes one unit of fuel and at least one element. -/
def chunks64 (l : List Nat) : List (List Nat) := chunks64Go l.length l

/-- Big-endian 32-bit words from a byte list. -/
def bytesToWordsBE : List Nat → List Nat
  | b0 :: b1 :: b2 :: b3 :: rest =>
    (b0 * 16777216 + b1 * 65536 + b2 * 256 + b3) :: bytesToWordsBE rest
  | _ => []

/-- SHA-1 digest (20 bytes) of a byte-list message. -/
def sha1 (msg : List Nat) : List Nat :=
  let blocks := (chunks64 (sha1Pad msg)).map bytesToWordsBE
  let (h0, h1, h2, h3, h4) :=
    blocks.foldl sha1Compress (1732584193, 4023233417, 2562383102, 271733878, 3285377520)
  toBytesBE 4 h0 ++ toBytesBE 4 h1 ++ toBytesBE 4 h2 ++ toBytesBE 4 h3 ++ toBytesBE 4 h4

/-- HMAC-SHA1 (RFC 2104): block size 64 bytes. -/
def hmacSha1 (key msg : List Nat) : List Nat :=
  let key := if key.length > 64 then sha1 key else key
  let key := key ++ List.replicate (64 - key.length) 0
  let ipad := key.map (fun b => b ^^^ 54)
  let opad := key.map (fun b => b ^^^ 92)
  sha1 (opad ++ sha1 (ipad ++ msg))

/-- The base64 alphabet, as byte values of the characters. -/
def b64Char (n : Nat) : Nat :=
  if n < 26 then 65 + n
  else if n < 52 then 97 + (n - 26)
  else if n < 62 then 48 + (n - 52)
  else if n = 62 then 43
  else 47

/-- Standard base64 encoding with `=` padding (byte 61). -/
def base64Encode : List Nat → List Nat
  | b0 :: b1 :: b2 :: rest =>
    let n := b0 * 65536 + b1 * 256 + b2
    b64Char (n / 262144) :: b64Char (n / 4096 % 64) :: b64Char (n / 64 % 64) ::
      b64Char (n % 64) :: base64Encode rest
  | [b0, b1] =>
    let n := b0 * 65536 + b1 * 256
    [b64Char (n / 262144), b64Char (n / 4096 % 64), b64Char (n / 64 % 64), 61]
  | [b0] =>
    let n := b0 * 65536
    [b64Char (n / 262144), b64Char (n / 4096 % 64), 61, 61]
  | [] => []

/-- Unreserved bytes of the `percent_encode` match arm in src/etrade.rs:
`A-Z`, `a-z`, `0-9`, `-`, `.`, `_`, `~`. -/
def isUnreservedByte (b : Nat) : Bool :=
  (65 ≤ b && b ≤ 90) || (97 ≤ b && b ≤ 122) || (48 ≤ b && b ≤ 57) ||
    b == 45 || b == 46 || b == 95 || b == 126

/-- Uppercase hexadecimal digit character (byte value) of `d < 16`,
as produced by Rust's `{:02X}` on each nibble of a byte. -/
def hexUpperDigit (d : Nat) : Nat := if d < 10 then 48 + d else 55 + d

/-- `percent_encode` from src/etrade.rs lines 507-520: unreserved bytes pass
through, every other byte becomes `%` plus two uppercase hex digits. -/
def percent_encode : Bytes → Bytes
  | [] => []
  | b :: rest =>
    (if isUnreservedByte b then [b]
     else [37, hexUpperDigit (b / 16 % 16), hexUpperDigit (b % 16)]) ++
      percent_encode rest

/-- Byte-wise lexicographic `≤` on byte strings, matching Rust's
`str::cmp` (which compares UTF-8 bytes lexicographically). -/
def bytesLe : Bytes → Bytes → Bool
  | [], _ => true
  | _ :: _, [] => false
  | a :: as, b :: bs => if a < b then true else if b < a then false else bytesLe as bs

/-- Stable ordered insertion by key, the building block of the model of
Rust's stable `slice::sort_by(|a, b| a.0.cmp(&b.0))`. -/
def insertPair (p : Bytes × Bytes) : List (Bytes × Bytes) → List (Bytes × Bytes)
  | [] => [p]
  | q :: qs => if bytesLe p.1 q.1 then p :: q :: qs else q :: insertPair p qs

/-- Stable sort of key/value pairs by key, modelling
`sorted_params.sort_by(|a, b| a.0.cmp(&b.0))` in src/etrade.rs line 55.
Insertion of each element after all earlier elements with `≤` key
preserves the input order of equal keys, as Rust's stable sort does. -/
def sortPairs : List (Bytes × Bytes) → List (Bytes × Bytes)
  | [] => []
  | p :: ps => insertPair p (sortPairs ps)

/-- `Vec::join(sep)`: intercalates a separator between byte strings. -/
def joinSep (sep : Bytes) : List Bytes → Bytes
  | [] => []
  | [x] => x
  | x :: xs => x ++ sep ++ joinSep sep xs

/-- ASCII uppercasing of a byte string, modelling `str::to_uppercase` on
the ASCII method names (`GET`, `POST`) the code passes. -/
def upperAscii (b : Bytes) : Bytes :=
  b.map (fun c => if 97 ≤ c ∧ c ≤ 122 then c - 32 else c)

namespace Etrade

/-- `generate_oauth_signature` from src/etrade.rs lines 48-82: sort the
parameters by key, join the percent-encoded pairs with `&`, build the
base string `UPPER(method) & enc(url) & enc(param_string)`, HMAC-SHA1 it
under `enc(consumer_secret) & enc(token_secret)`, base64 the digest.
Byte 38 is `&`, byte 61 is `=`. -/
def generate_oauth_signature (consumer_secret oauth_token_secret : Bytes)
    (method url : Bytes) (params : List (Bytes × Bytes)) : Bytes :=
  let sorted_params := sortPairs params
  let param_string :=
    joinSep [38] (sorted_params.map fun kv => percent_encode kv.1 ++ [61] ++ percent_encode kv.2)
  let base_string :=
    upperAscii method ++ [38] ++ percent_encode url ++ [38] ++ percent_encode param_string
  let signing_key := percent_encode consumer_secret ++ [38] ++ percent_encode oauth_token_secret
  base64Encode (hmacSha1 signing_key base_string)

/-- `build_auth_header` from src/etrade.rs lines 85-113.  The wall-clock
timestamp and the random nonce that the Rust code draws are passed in as
explicit arguments.  Bytes 61/34 are `="`, byte 34 is `"`. -/
def build_auth_header (consumer_key consumer_secret oauth_token oauth_token_secret : Bytes)
    (method url : Bytes) (timestamp nonce : Bytes) : Bytes :=
  let oauth_params : List (Bytes × Bytes) := [
    (ascii "oauth_consumer_key", consumer_key),
    (ascii "oauth_token", oauth_token),
    (ascii "oauth_signature_method", ascii "HMAC-SHA1"),
    (ascii "oauth_timestamp", timestamp),
    (ascii "oauth_nonce", nonce),
    (ascii "oauth_version", ascii "1.0")]
  let signature :=
    generate_oauth_signature consumer_secret oauth_token_secret method url oauth_params
  let all_params := oauth_params ++ [(ascii "oauth_signature", signature)]
  ascii "OAuth " ++
    joinSep (ascii ", ") (all_params.map fun kv => kv.1 ++ [61, 34] ++ percent_encode kv.2 ++ [34])

end Etrade

/-! ## Domain model

Modelled from the spec: the domain structures (`AccountSummary`,
`AccountBalance`, `Position`, `Order`, `OrderRequest` and the associated
enums) live in the external `models` crate, which is not part of this
repository's sources; their field sets are taken from spec section 3 and
from how src/etrade.rs and src/lib.rs construct them.  Timestamps
(`chrono::DateTime<Utc>`) are modelled as `Nat`; `f64` monetary fields as
`Rat` (only moved, compared, or set to the constant `0.0`); the
`HashMap<String, serde_json::Value>` extension bags as association lists
of string pairs (every value the code ever inserts is a JSON string). -/

/-- Modelled from the spec: `AccountBalance` of the `models` crate. -/
structure AccountBalance where
  currency : String
  total_equity : Rat
  available_cash : Rat
  buying_power : Rat
  locked_cash : Rat
deriving DecidableEq

/-- Modelled from the spec: `Position` of the `models` crate. -/
structure Position where
  symbol_id : String
  quantity : Rat
  average_price : Rat
  current_price : Rat
  unrealized_pnl : Rat
  unrealized_pnl_percent : Rat
deriving DecidableEq

/-- Modelled from the spec: `AccountSummary` of the `models` crate. -/
structure AccountSummary where
  id : String
  name : String
  broker_id : String
  is_paper : Bool
  balance : AccountBalance
  positions : List Position
  updated_at : Nat
  extensions : Option (List (String × String))
deriving DecidableEq

/-- Modelled from the spec: `OrderType` of the `models` crate. -/
inductive OrderType where
  | Market
  | Limit
  | Stop
  | StopLimit
deriving DecidableEq

/-- Modelled from the spec: `OrderSide` of the `models` crate. -/
inductive OrderSide where
  | Buy
  | Sell
deriving DecidableEq

/-- Modelled from the spec: the order lifecycle states this adapter uses
(`Submitted` on success, `Rejected` on failure; the other lifecycle
states belong to the broader system and are never produced here). -/
inductive OrderStatus where
  | Submitted
  | Rejected
deriving DecidableEq

/-- Modelled from the spec: `OrderRequest` of the `models` crate. -/
structure OrderRequest where
  symbol_id : String
  side : OrderSide
  order_type : OrderType
  quantity : Rat
  limit_price : Option Rat
  persona_id : String
deriving DecidableEq

/-- Modelled from the spec: `Order` of the `models` crate. -/
structure Order where
  id : String
  request : OrderRequest
  status : OrderStatus
  created_at : Nat
  updated_at : Nat
  filled_quantity : Rat
  average_filled_price : Option Rat
  extensions : Option (List (String × String))
  persona_id : String
deriving DecidableEq

/-- Decimal digits of a natural number, most significant first; the fuel
argument (any bound `≥` the digit count, `n + 1` is ample) keeps the
recursion structural. -/
def natDigitsGo : Nat → Nat → List Nat
  | 0, _ => []
  | fuel + 1, n => if n < 10 then [n] else natDigitsGo fuel (n / 10) ++ [n % 10]

/-- Decimal string of a natural number, as Rust's `to_string`. -/
def natStr (n : Nat) : String := ⟨(natDigitsGo (n + 1) n).map (fun d => Char.ofNat (48 + d))⟩

/-- Decimal string of an integer, as Rust's `i64::to_string`. -/
def intStr : Int → String
  | .ofNat n => natStr n
  | .negSucc n => "-" ++ natStr (n + 1)

/-- Lowercase hexadecimal digit character (code point) of `d < 16`. -/
def hexLowerDigit (d : Nat) : Nat := if d < 10 then 48 + d else 87 + d

/-- The 16 lowercase hex digits of a `u64`, most significant first,
as Rust's `format!("{:016x}", r)` renders a `u64`. -/
def natHex16 (r : Nat) : String :=
  ⟨(List.range 16).reverse.map (fun i => Char.ofNat (hexLowerDigit (r / 16 ^ i % 16)))⟩

namespace Etrade

/-! ## Vendor response shapes (src/etrade.rs `Deserialize` structs)

The HTTP layer (`api_get` / `api_post`, spec section 4.3) delegates the
socket work to an external executor; each normalizer function below
therefore receives the typed outcome of its vendor call —
`Except String T`, where `.error` carries the formatted transport or
deserialization failure — as an explicit argument. -/

/-- `ETradeAccount` from `list_accounts` in src/etrade.rs. -/
structure ETradeAccount where
  account_id : String
  account_id_key : String
  account_name : Option String
deriving DecidableEq

/-- `RealTimeValues` from `get_account_details` in src/etrade.rs. -/
structure RealTimeValues where
  total_account_value : Option Rat
  net_mv : Option Rat
  total_long_value : Option Rat
deriving DecidableEq

/-- `ComputedBalance` from `get_account_details` in src/etrade.rs. -/
structure ComputedBalance where
  real_time : Option RealTimeValues
deriving DecidableEq

/-- `BalanceInner` from `get_account_details` in src/etrade.rs. -/
structure BalanceInner where
  computed : Option ComputedBalance
deriving DecidableEq

/-- `BalanceResponse` from `get_account_details` in src/etrade.rs. -/
structure BalanceResponse where
  response : BalanceInner
deriving DecidableEq

/-- `QuickView` from `get_positions` in src/etrade.rs. -/
structure QuickView where
  last_trade : Option Rat
deriving DecidableEq

/-- `ProductInfo` from `get_positions` in src/etrade.rs. -/
structure ProductInfo where
  symbol : String
deriving DecidableEq

/-- `ETradePosition` from `get_positions` in src/etrade.rs. -/
structure ETradePosition where
  product : ProductInfo
  quantity : Option Rat
  cost_per_share : Option Rat
  market_value : Option Rat
  total_gain : Option Rat
  total_gain_pct : Option Rat
  quick : Option QuickView
deriving DecidableEq

/-- `AccountPortfolio` from `get_positions` in src/etrade.rs. -/
structure AccountPortfolio where
  position : Option (List ETradePosition)
deriving DecidableEq

/-- `PortfolioInner` from `get_positions` in src/etrade.rs. -/
structure PortfolioInner where
  account_portfolio : Option (List AccountPortfolio)
deriving DecidableEq

/-- `PortfolioResponse` from `get_positions` in src/etrade.rs. -/
structure PortfolioResponse where
  response : Option PortfolioInner
deriving DecidableEq

/-- The `Position` built for one vendor entry inside `get_positions`
(src/etrade.rs lines 349-362): `current_price` is
`pos.quick.and_then(|q| q.last_trade).or(pos.cost_per_share).unwrap_or(0.0)`,
the other fields are `unwrap_or(0.0)` of their vendor fields. -/
def mkPosition (pos : ETradePosition) : Position :=
  let current_price := ((pos.quick.bind QuickView.last_trade).or pos.cost_per_share).getD 0
  { symbol_id := pos.product.symbol
    quantity := pos.quantity.getD 0
    average_price := pos.cost_per_share.getD 0
    current_price := current_price
    unrealized_pnl := pos.total_gain.getD 0
    unrealized_pnl_percent := pos.total_gain_pct.getD 0 }

/-- The `if let Some(pos_list) = portfolio.position` body of one
iteration of the portfolio loop in `get_positions`. -/
def portfolioPositions (ap : AccountPortfolio) : List Position :=
  match ap.position with
  | none => []
  | some ps => ps.map mkPosition

/-- The nested `for portfolio in portfolios { if let Some(pos_list) ... }`
loops of `get_positions`, pushing one `Position` per vendor entry. -/
def collectPositions : List AccountPortfolio → List Position
  | [] => []
  | ap :: rest => portfolioPositions ap ++ collectPositions rest

/-- `get_positions` from src/etrade.rs lines 293-370, with the typed
outcome of the portfolio call passed in.  Every `Option` level of the
vendor payload that is absent contributes no positions. -/
def get_positions (resp : Except String PortfolioResponse) : Except String (List Position) := do
  let r ← resp
  pure
    (match r.response with
     | none => []
     | some inner =>
       match inner.account_portfolio with
       | none => []
       | some portfolios => collectPositions portfolios)

/-- The balance assembled by `get_account_details` (src/etrade.rs lines
264-284): on success, real-time values with `unwrap_or(0.0)` defaults;
on failure of the balance call, the synthesized zero-valued balance. -/
def balanceOf : Except String BalanceResponse → AccountBalance
  | .ok resp =>
    let rt := resp.response.computed.bind ComputedBalance.real_time
    { currency := "USD"
      total_equity := (rt.bind RealTimeValues.total_account_value).getD 0
      available_cash := (rt.bind RealTimeValues.net_mv).getD 0
      buying_power := (rt.bind RealTimeValues.total_long_value).getD 0
      locked_cash := 0 }
  | .error _ =>
    { currency := "USD", total_equity := 0, available_cash := 0
      buying_power := 0, locked_cash := 0 }

/-- The positions assembled by `get_account_details` (src/etrade.rs line
287): `self.get_positions(account_id_key).unwrap_or_default()`. -/
def positionsOrDefault (portResp : Except String PortfolioResponse) : List Position :=
  match get_positions portResp with
  | .ok ps => ps
  | .error _ => []

/-- `get_account_details` from src/etrade.rs lines 233-290: both
sub-failures are absorbed, the function always returns `Ok`. -/
def get_account_details (balResp : Except String BalanceResponse)
    (portResp : Except String PortfolioResponse) :
    Except String (AccountBalance × List Position) :=
  .ok (balanceOf balResp, positionsOrDefault portResp)

/-- The `AccountSummary` assembled for one vendor account inside the
`list_accounts` loop (src/etrade.rs lines 213-227), depending only on
that account's own balance and portfolio sub-calls. -/
def mkAccountSummary (bal : String → Except String BalanceResponse)
    (port : String → Except String PortfolioResponse) (now : Nat) (is_sandbox : Bool)
    (acct : ETradeAccount) : AccountSummary :=
  { id := acct.account_id
    name := acct.account_name.getD ("E*TRADE " ++ acct.account_id)
    broker_id := "broker-etrade"
    is_paper := is_sandbox
    balance := balanceOf (bal acct.account_id_key)
    positions := positionsOrDefault (port acct.account_id_key)
    updated_at := now
    extensions := some [("account_id_key", acct.account_id_key)] }

/-- The `for acct in ...` loop of `list_accounts`, with the `?` on
`get_account_details` rendered as `Except` bind. -/
def assembleAccounts (bal : String → Except String BalanceResponse)
    (port : String → Except String PortfolioResponse) (now : Nat) (is_sandbox : Bool) :
    List ETradeAccount → Except String (List AccountSummary)
  | [] => .ok []
  | acct :: rest => do
    let (balance, positions) ← get_account_details (bal acct.account_id_key) (port acct.account_id_key)
    let others ← assembleAccounts bal port now is_sandbox rest
    pure
      ({ id := acct.account_id
         name := acct.account_name.getD ("E*TRADE " ++ acct.account_id)
         broker_id := "broker-etrade"
         is_paper := is_sandbox
         balance := balance
         positions := positions
         updated_at := now
         extensions := some [("account_id_key", acct.account_id_key)] } :: others)

/-- `list_accounts` from src/etrade.rs lines 178-231, with the typed
outcome of the account-list call and the per-account-key outcomes of the
balance and portfolio sub-calls passed in as oracles. -/
def list_accounts (resp : Except String (List ETradeAccount))
    (bal : String → Except String BalanceResponse)
    (port : String → Except String PortfolioResponse) (now : Nat) (is_sandbox : Bool) :
    Except String (List AccountSummary) := do
  let accts ← resp
  assembleAccounts bal port now is_sandbox accts

/-- `OrderIdInfo` from `submit_order` in src/etrade.rs (`orderId: i64`). -/
structure OrderIdInfo where
  order_id : Int
deriving DecidableEq

/-- `PlaceOrderResult` from `submit_order` in src/etrade.rs. -/
structure PlaceOrderResult where
  order_ids : Option (List OrderIdInfo)
deriving DecidableEq

/-- `PlaceOrderResponse` from `submit_order` in src/etrade.rs. -/
structure PlaceOrderResponse where
  response : PlaceOrderResult
deriving DecidableEq

/-- `ProductInner` of the outgoing order payload in src/etrade.rs. -/
structure ProductInner where
  security_type : String
  symbol : String
deriving DecidableEq

/-- `InstrumentInner` of the outgoing order payload in src/etrade.rs. -/
structure InstrumentInner where
  product : ProductInner
  order_action : String
  quantity_type : String
  quantity : Rat
deriving DecidableEq

/-- `OrderInner` of the outgoing order payload in src/etrade.rs. -/
structure OrderInner where
  all_or_none : Bool
  price_type : String
  order_term : String
  market_session : String
  limit_price : Option Rat
  instrument : List InstrumentInner
deriving DecidableEq

/-- `PlaceOrderInner` of the outgoing order payload in src/etrade.rs. -/
structure PlaceOrderInner where
  order_type : String
  client_order_id : String
  order : List OrderInner
deriving DecidableEq

/-- `PlaceOrderRequest` of the outgoing order payload in src/etrade.rs. -/
structure PlaceOrderRequest where
  request : PlaceOrderInner
deriving DecidableEq

/-- The `price_type` mapping of `submit_order` (src/etrade.rs 425-430). -/
def priceTypeOf : OrderType → String
  | .Market => "MARKET"
  | .Limit => "LIMIT"
  | .Stop => "STOP"
  | .StopLimit => "STOP_LIMIT"

/-- The `order_action` mapping of `submit_order` (src/etrade.rs 432-435). -/
def orderActionOf : OrderSide → String
  | .Buy => "BUY"
  | .Sell => "SELL"

/-- The outgoing `PlaceOrderRequest` built by `submit_order`
(src/etrade.rs lines 439-460). -/
def buildPlaceOrderRequest (order : OrderRequest) (client_order_id : String) : PlaceOrderRequest :=
  { request :=
    { order_type := "EQ"
      client_order_id := client_order_id
      order := [
        { all_or_none := false
          price_type := priceTypeOf order.order_type
          order_term := "GOOD_FOR_DAY"
          market_session := "REGULAR"
          limit_price := order.limit_price
          instrument := [
            { product := { security_type := "EQ", symbol := order.symbol_id }
              order_action := orderActionOf order.side
              quantity_type := "QUANTITY"
              quantity := order.quantity }] }] } }

/-- `submit_order` from src/etrade.rs lines 373-503.  The random `u64`
drawn for the idempotency token is the `rand` argument; the typed outcome
of the POST is given by the `post` oracle. -/
def submit_order (order : OrderRequest) (rand : Nat) (now : Nat)
    (post : PlaceOrderRequest → Except String PlaceOrderResponse) : Except String Order :=
  let client_order_id := "KL" ++ natHex16 (rand % 18446744073709551616)
  let req := buildPlaceOrderRequest order client_order_id
  match post req with
  | .error e => .error e
  | .ok resp =>
    let order_id :=
      match resp.response.order_ids with
      | some (o :: _) => intStr o.order_id
      | some [] => client_order_id
      | none => client_order_id
    .ok
      { id := order_id
        request := order
        status := .Submitted
        created_at := now
        updated_at := now
        filled_quantity := 0
        average_filled_price := none
        extensions := some [("client_order_id", client_order_id)]
        persona_id := order.persona_id }

end Etrade

namespace Plugin

/-- `ETradeClient` state from src/etrade.rs lines 20-45. -/
structure ETradeClient where
  consumer_key : String
  consumer_secret : String
  oauth_token : String
  oauth_token_secret : String
  base_url : String
  is_sandbox : Bool
deriving DecidableEq

/-- `ETradeClient::new` from src/etrade.rs lines 30-45. -/
def ETradeClient.new (consumer_key consumer_secret oauth_token oauth_token_secret : String)
    (is_sandbox : Bool) : ETradeClient :=
  { consumer_key := consumer_key
    consumer_secret := consumer_secret
    oauth_token := oauth_token
    oauth_token_secret := oauth_token_secret
    base_url := if is_sandbox then "https://apisb.etrade.com" else "https://api.etrade.com"
    is_sandbox := is_sandbox }

/-- `BrokerState` from src/lib.rs lines 32-36. -/
structure BrokerState where
  client : Option ETradeClient
  orders : List (String × Order)
  next_order_id : Nat
deriving DecidableEq

/-- `BrokerState::new` from src/lib.rs lines 39-45. -/
def BrokerState.new : BrokerState := { client := none, orders := [], next_order_id := 1 }

/-- The configuration values `initialize` (src/lib.rs lines 71-92)
extracts from its JSON payload: `consumer_key` / `consumer_secret` with
`unwrap_or_default` (absent becomes `""`), the token pair kept optional,
`is_sandbox` defaulting to `true`. -/
structure InitConfig where
  consumer_key : String
  consumer_secret : String
  oauth_token : Option String
  oauth_token_secret : Option String
  is_sandbox : Bool
deriving DecidableEq

/-- The JSON object `initialize` responds with: `success`, an optional
`message`/`error`, and on the token-less path `requires_auth` plus the
fixed `auth_url` (fields absent from a response are `none`/`false`). -/
structure InitResult where
  success : Bool
  message : Option String
  error : Option String
  requires_auth : Bool
  auth_url : Option String
deriving DecidableEq

/-- `initialize` from src/lib.rs lines 65-128 (named `initializeBroker`
here).  Empty consumer key or secret fails; with both present, a full
token pair configures the client, otherwise the state is untouched and
interactive OAuth is requested while the call still succeeds. -/
def initializeBroker (cfg : InitConfig) (st : BrokerState) : BrokerState × InitResult :=
  if cfg.consumer_key = "" ∨ cfg.consumer_secret = "" then
    (st, { success := false
           message := none
           error := some "Missing required configuration: consumer_key or consumer_secret"
           requires_auth := false
           auth_url := none })
  else
    match cfg.oauth_token, cfg.oauth_token_secret with
    | some tok, some sec =>
      ({ st with client := some (ETradeClient.new cfg.consumer_key cfg.consumer_secret
                                   tok sec cfg.is_sandbox) },
       { success := true
         message := some (if cfg.is_sandbox then "E*TRADE plugin initialized (sandbox)"
                          else "E*TRADE plugin initialized (production)")
         error := none
         requires_auth := false
         auth_url := none })
    | _, _ =>
      (st, { success := true
             message := some "E*TRADE plugin initialized. OAuth authorization required."
             error := none
             requires_auth := true
             auth_url := some "https://us.etrade.com/e/t/etws/authorize" })

/-- `GetAccountsRequest` of the plugin API (its contents are ignored by
`get_accounts`). -/
structure GetAccountsRequest where
deriving DecidableEq

/-- `GetPositionsRequest` of the plugin API. -/
structure GetPositionsRequest where
  account_id : String
deriving DecidableEq

/-- `SubmitOrderRequest` of the plugin API. -/
structure SubmitOrderRequest where
  account_id : String
  order : OrderRequest
deriving DecidableEq

/-- `GetAccountsResponse` of the plugin API. -/
structure GetAccountsResponse where
  accounts : List AccountSummary
deriving DecidableEq

/-- `GetPositionsResponse` of the plugin API. -/
structure GetPositionsResponse where
  positions : List Position
deriving DecidableEq

/-- `SubmitOrderResponse` of the plugin API. -/
structure SubmitOrderResponse where
  order : Order
deriving DecidableEq

/-- `create_error_account` from src/lib.rs lines 242-259. -/
def create_error_account (error : String) (now : Nat) : AccountSummary :=
  { id := "error"
    name := "Error: " ++ error
    broker_id := "broker-etrade"
    is_paper := true
    balance := { currency := "USD", total_equity := 0, available_cash := 0
                 buying_power := 0, locked_cash := 0 }
    positions := []
    updated_at := now
    extensions := none }

/-- `create_error_order` from src/lib.rs lines 261-277. -/
def create_error_order (req : SubmitOrderRequest) (error : String) (now : Nat) : Order :=
  { id := "error_" ++ natStr now
    request := req.order
    status := .Rejected
    created_at := now
    updated_at := now
    average_filled_price := none
    filled_quantity := 0
    extensions := some [("error", error)]
    persona_id := req.order.persona_id }

/-- `get_accounts` from src/lib.rs lines 132-158 (on a parsed request;
the request contents are unused).  The vendor-call outcomes are the
`listResp`, `bal`, `port` oracles. -/
def get_accounts (st : BrokerState) (listResp : Except String (List Etrade.ETradeAccount))
    (bal : String → Except String Etrade.BalanceResponse)
    (port : String → Except String Etrade.PortfolioResponse) (now : Nat) : GetAccountsResponse :=
  match st.client with
  | none => { accounts := [create_error_account "Plugin not initialized or OAuth not completed" now] }
  | some c =>
    match Etrade.list_accounts listResp bal port now c.is_sandbox with
    | .ok accounts => { accounts := accounts }
    | .error e => { accounts := [create_error_account e now] }

/-- `get_positions` from src/lib.rs lines 162-184 (on a parsed request). -/
def get_positions (st : BrokerState) (req : GetPositionsRequest)
    (port : String → Except String Etrade.PortfolioResponse) : GetPositionsResponse :=
  match st.client with
  | none => { positions := [] }
  | some _ =>
    match Etrade.get_positions (port req.account_id) with
    | .ok positions => { positions := positions }
    | .error _ => { positions := [] }

/-- `submit_order` from src/lib.rs lines 188-220 (on a parsed request):
gates on the session state, tracks a successful order in the ledger and
advances the diagnostic counter, converts failure to a rejected order. -/
def submit_order (st : BrokerState) (req : SubmitOrderRequest) (rand : Nat)
    (post : Etrade.PlaceOrderRequest → Except String Etrade.PlaceOrderResponse) (now : Nat) :
    BrokerState × SubmitOrderResponse :=
  match st.client with
  | none => (st, { order := create_error_order req "Plugin not initialized" now })
  | some _ =>
    match Etrade.submit_order req.order rand now post with
    | .ok order =>
      let order := if order.persona_id = "" then { order with persona_id := req.order.persona_id }
                   else order
      ({ st with orders := (order.id, order) :: st.orders
                 next_order_id := st.next_order_id + 1 },
       { order := order })
    | .error e => (st, { order := create_error_order req e now })

/-- `parse_request` from src/lib.rs lines 224-227.  The JSON parse
outcome of the host payload is modelled as `Option T` (the
deserialization machinery itself is outside the core); the
`.expect("Failed to parse request")` panic on a malformed payload is
modelled as `Except.error` carrying the panic message. -/
def parse_request {T : Type} (payload : Option T) : Except String T :=
  match payload with
  | some t => .ok t
  | none => .error "Failed to parse request"

/-- The full `initialize` entry point: request parsing (which panics on a
malformed payload) followed by the handler. -/
def initializeBrokerRaw (payload : Option InitConfig) (st : BrokerState) :
    Except String (BrokerState × InitResult) := do
  let cfg ← parse_request payload
  pure (initializeBroker cfg st)

/-- The full `get_accounts` entry point: request parsing followed by the
handler. -/
def get_accounts_raw (payload : Option GetAccountsRequest) (st : BrokerState)
    (listResp : Except String (List Etrade.ETradeAccount))
    (bal : String → Except String Etrade.BalanceResponse)
    (port : String → Except String Etrade.PortfolioResponse) (now : Nat) :
    Except String GetAccountsResponse := do
  let _req ← parse_request payload
  pure (get_accounts st listResp bal port now)

/-- The full `get_positions` entry point: request parsing followed by the
handler. -/
def get_positions_raw (payload : Option GetPositionsRequest) (st : BrokerState)
    (port : String → Except String Etrade.PortfolioResponse) :
    Except String GetPositionsResponse := do
  let req ← parse_request payload
  pure (get_positions st req port)

/-- The full `submit_order` entry point: request parsing followed by the
handler. -/
def submit_order_raw (payload : Option SubmitOrderRequest) (st : BrokerState) (rand : Nat)
    (post : Etrade.PlaceOrderRequest → Except String Etrade.PlaceOrderResponse) (now : Nat) :
    Except String (BrokerState × SubmitOrderResponse) := do
  let req ← parse_request payload
  pure (submit_order st req rand post now)

end Plugin

/-! ## Theory of the parameter sort -/

/-- Key-wise `≤` on parameter pairs. -/
def keyLe (p q : Bytes × Bytes) : Prop := bytesLe p.1 q.1 = true

/-- Key-wise strict order on parameter pairs. -/
def keyLt (p q : Bytes × Bytes) : Prop := bytesLe p.1 q.1 = true ∧ p.1 ≠ q.1

theorem bytesLe_total (x y : Bytes) : bytesLe x y = true ∨ bytesLe y x = true := by
  induction x generalizing y with
  | nil => left; rfl
  | cons a as ih =>
    cases y with
    | nil => right; rfl
    | cons b bs =>
      rcases Nat.lt_trichotomy a b with h1 | h1 | h1
      · left; simp [bytesLe, h1]
      · subst h1
        rcases ih bs with h | h
        · left; simp [bytesLe, h]
        · right; simp [bytesLe, h]
      · right; simp [bytesLe, h1]

theorem bytesLe_trans (x y z : Bytes) (hxy : bytesLe x y = true) (hyz : bytesLe y z = true) :
    bytesLe x z = true := by
  induction x generalizing y z with
  | nil => rfl
  | cons a as ih =>
    cases y with
    | nil => simp [bytesLe] at hxy
    | cons b bs =>
      cases z with
      | nil => simp [bytesLe] at hyz
      | cons c cs =>
        rcases Nat.lt_trichotomy a b with h1 | h1 | h1
        · rcases Nat.lt_trichotomy b c with h2 | h2 | h2
          · simp [bytesLe, Nat.lt_trans h1 h2]
          · subst h2; simp [bytesLe, h1]
          · simp [bytesLe, Nat.lt_asymm h2, h2] at hyz
        · subst h1
          simp only [bytesLe, Nat.lt_irrefl, if_false] at hxy
          rcases Nat.lt_trichotomy a c with h2 | h2 | h2
          · simp [bytesLe, h2]
          · subst h2
            simp only [bytesLe, Nat.lt_irrefl, if_false] at hyz ⊢
            exact ih bs cs hxy hyz
          · simp [bytesLe, Nat.lt_asymm h2, h2] at hyz
        · simp [bytesLe, Nat.lt_asymm h1, h1] at hxy

theorem bytesLe_antisymm (x y : Bytes) (hxy : bytesLe x y = true) (hyx : bytesLe y x = true) :
    x = y := by
  induction x generalizing y with
  | nil =>
    cases y with
    | nil => rfl
    | cons b bs => simp [bytesLe] at hyx
  | cons a as ih =>
    cases y with
    | nil => simp [bytesLe] at hxy
    | cons b bs =>
      rcases Nat.lt_trichotomy a b with h1 | h1 | h1
      · simp [bytesLe, Nat.lt_asymm h1, h1] at hyx
      · subst h1
        simp only [bytesLe, Nat.lt_irrefl, if_false] at hxy hyx
        rw [ih bs hxy hyx]
      · simp [bytesLe, Nat.lt_asymm h1, h1] at hxy

theorem insertPair_perm (p : Bytes × Bytes) (l : List (Bytes × Bytes)) :
    (insertPair p l).Perm (p :: l) := by
  induction l with
  | nil => exact List.Perm.refl _
  | cons q qs ih =>
    by_cases h : bytesLe p.1 q.1 = true
    · simp [insertPair, h]
    · simp only [insertPair, if_neg h]
      exact (List.Perm.cons q ih).trans (List.Perm.swap p q qs)

theorem sortPairs_perm (l : List (Bytes × Bytes)) : (sortPairs l).Perm l := by
  induction l with
  | nil => exact List.Perm.refl _
  | cons p ps ih =>
    exact (insertPair_perm p (sortPairs ps)).trans (List.Perm.cons p ih)

theorem mem_insertPair {x p : Bytes × Bytes} {l : List (Bytes × Bytes)}
    (hx : x ∈ insertPair p l) : x = p ∨ x ∈ l := by
  have := (insertPair_perm p l).mem_iff.mp hx
  simpa using this

theorem sorted_insertPair (p : Bytes × Bytes) (l : List (Bytes × Bytes))
    (h : l.Sorted keyLe) : (insertPair p l).Sorted keyLe := by
  induction l with
  | nil => simp [insertPair, keyLe]
  | cons q qs ih =>
    rcases List.sorted_cons.mp h with ⟨hq, hqs⟩
    by_cases hpq : bytesLe p.1 q.1 = true
    · simp only [insertPair, if_pos hpq]
      refine List.sorted_cons.mpr ⟨?_, h⟩
      intro x hx
      rcases List.mem_cons.mp hx with rfl | hx
      · exact hpq
      · exact bytesLe_trans _ _ _ hpq (hq x hx)
    · simp only [insertPair, if_neg hpq]
      refine List.sorted_cons.mpr ⟨?_, ih hqs⟩
      intro x hx
      rcases mem_insertPair hx with rfl | hx
      · rcases bytesLe_total x.1 q.1 with hh | hh
        · exact absurd hh hpq
        · exact hh
      · exact hq x hx

theorem sorted_sortPairs (l : List (Bytes × Bytes)) : (sortPairs l).Sorted keyLe := by
  induction l with
  | nil => simp [sortPairs]
  | cons p ps ih => exact sorted_insertPair p _ ih

theorem sortPairs_eq_of_perm (l₁ l₂ : List (Bytes × Bytes)) (hp : l₁.Perm l₂)
    (hnd : (l₁.map Prod.fst).Nodup) : sortPairs l₁ = sortPairs l₂ := by
  have hperm : (sortPairs l₁).Perm (sortPairs l₂) :=
    (sortPairs_perm l₁).trans (hp.trans (sortPairs_perm l₂).symm)
  have hnd₁ : ((sortPairs l₁).map Prod.fst).Nodup :=
    (((sortPairs_perm l₁).map Prod.fst).nodup_iff).mpr hnd
  have hnd₂ : ((sortPairs l₂).map Prod.fst).Nodup :=
    ((hperm.map Prod.fst).nodup_iff).mp hnd₁
  have hne₁ : (sortPairs l₁).Pairwise (fun a b => a.1 ≠ b.1) := List.pairwise_map.mp hnd₁
  have hne₂ : (sortPairs l₂).Pairwise (fun a b => a.1 ≠ b.1) := List.pairwise_map.mp hnd₂
  have hs₁ : (sortPairs l₁).Sorted keyLt := (sorted_sortPairs l₁).and hne₁
  have hs₂ : (sortPairs l₂).Sorted keyLt := (sorted_sortPairs l₂).and hne₂
  haveI : IsAntisymm (Bytes × Bytes) keyLt := ⟨by
    rintro ⟨k₁, v₁⟩ ⟨k₂, v₂⟩ ⟨h1, h2⟩ ⟨h3, h4⟩
    exact absurd (bytesLe_antisymm _ _ h1 h3) h2⟩
  exact List.eq_of_perm_of_sorted hperm hs₁ hs₂

/-! ## Claim theorems: the OAuth signer -/

/-- C1: for every method, URL, credential pair, timestamp and nonce, the
Authorization header produced by `build_auth_header` is exactly `OAuth `
followed by the comma-space-joined `key="encoded_value"` pairs for
`oauth_consumer_key`, `oauth_token`, `oauth_signature_method`
(`HMAC-SHA1`), `oauth_timestamp`, `oauth_nonce`, `oauth_version` (`1.0`)
in insertion order with `oauth_signature` last, each value
percent-encoded; and the signature is the base64 HMAC-SHA1, keyed with
`enc(consumer_secret) & enc(token_secret)`, of the base string
`UPPER(method) & enc(url) & enc(param_string)` where `param_string`
joins the lexicographically key-sorted encoded pairs with `&`.  With
timestamp and nonce fixed as arguments, the function is deterministic,
so the result is exactly reproducible. -/
theorem claim_c1_auth_header (method url ck cs tok toksec ts nonce : Bytes) :
    Etrade.build_auth_header ck cs tok toksec method url ts nonce =
      ascii "OAuth " ++ joinSep (ascii ", ")
        [ascii "oauth_consumer_key" ++ [61, 34] ++ percent_encode ck ++ [34],
         ascii "oauth_token" ++ [61, 34] ++ percent_encode tok ++ [34],
         ascii "oauth_signature_method" ++ [61, 34] ++ percent_encode (ascii "HMAC-SHA1") ++ [34],
         ascii "oauth_timestamp" ++ [61, 34] ++ percent_encode ts ++ [34],
         ascii "oauth_nonce" ++ [61, 34] ++ percent_encode nonce ++ [34],
         ascii "oauth_version" ++ [61, 34] ++ percent_encode (ascii "1.0") ++ [34],
         ascii "oauth_signature" ++ [61, 34] ++ percent_encode (base64Encode (hmacSha1
           (percent_encode cs ++ [38] ++ percent_encode toksec)
           (upperAscii method ++ [38] ++ percent_encode url ++ [38] ++ percent_encode (joinSep [38]
             [percent_encode (ascii "oauth_consumer_key") ++ [61] ++ percent_encode ck,
              percent_encode (ascii "oauth_nonce") ++ [61] ++ percent_encode nonce,
              percent_encode (ascii "oauth_signature_method") ++ [61] ++
                percent_encode (ascii "HMAC-SHA1"),
              percent_encode (ascii "oauth_timestamp") ++ [61] ++ percent_encode ts,
              percent_encode (ascii "oauth_token") ++ [61] ++ percent_encode tok,
              percent_encode (ascii "oauth_version") ++ [61] ++
                percent_encode (ascii "1.0")])))) ++ [34]] := by
  have hsort : sortPairs [(ascii "oauth_consumer_key", ck), (ascii "oauth_token", tok),
      (ascii "oauth_signature_method", ascii "HMAC-SHA1"), (ascii "oauth_timestamp", ts),
      (ascii "oauth_nonce", nonce), (ascii "oauth_version", ascii "1.0")] =
      [(ascii "oauth_consumer_key", ck), (ascii "oauth_nonce", nonce),
       (ascii "oauth_signature_method", ascii "HMAC-SHA1"), (ascii "oauth_timestamp", ts),
       (ascii "oauth_token", tok), (ascii "oauth_version", ascii "1.0")] := rfl
  simp only [Etrade.build_auth_header, Etrade.generate_oauth_signature, hsort,
    List.map_cons, List.map_nil, List.append_nil, List.nil_append, List.cons_append]

set_option maxRecDepth 20000 in
/-- C3 (counterexample): the signature is not invariant under permutation
of an arbitrary input parameter list.  With the duplicate key `a` (values
`1` and `2`), Rust's stable sort preserves the input order of the two
pairs, so the two permutations yield different parameter strings and
different signatures. -/
theorem claim_c3_counterexample :
    ¬ (Etrade.generate_oauth_signature [] [] (ascii "GET") []
        [(ascii "a", ascii "1"), (ascii "a", ascii "2")] =
      Etrade.generate_oauth_signature [] [] (ascii "GET") []
        [(ascii "a", ascii "2"), (ascii "a", ascii "1")]) := by decide

/-- C3 (amended): for every method, URL and list of key-value parameters
whose keys are pairwise distinct, `generate_oauth_signature` returns the
same signature string on every permutation of that list: internal
sorting by key is deterministic, and with distinct keys it identifies
all reorderings. -/
theorem claim_c3_sort_invariance (cs toksec method url : Bytes)
    (p₁ p₂ : List (Bytes × Bytes)) (hp : p₁.Perm p₂)
    (hnd : (p₁.map Prod.fst).Nodup) :
    Etrade.generate_oauth_signature cs toksec method url p₁ =
      Etrade.generate_oauth_signature cs toksec method url p₂ := by
  simp only [Etrade.generate_oauth_signature]
  rw [sortPairs_eq_of_perm p₁ p₂ hp hnd]

/-- Bytes that the specification allows in encoder output:
`[A-Za-z0-9%.\-_~]`. -/
def allowedOutputByte (b : Nat) : Bool := isUnreservedByte b || b == 37

/-- Uppercase-hex digit characters `0-9`, `A-F` (byte values). -/
def isHexUpper (d : Nat) : Bool := (48 ≤ d && d ≤ 57) || (65 ≤ d && d ≤ 70)

/-- The value an uppercase-hex digit character denotes. -/
def hexDigitVal (d : Nat) : Nat :=
  if 48 ≤ d ∧ d ≤ 57 then d - 48 else if 65 ≤ d ∧ d ≤ 70 then d - 55 else 0

theorem percent_encode_append (l₁ l₂ : Bytes) :
    percent_encode (l₁ ++ l₂) = percent_encode l₁ ++ percent_encode l₂ := by
  induction l₁ with
  | nil => rfl
  | cons b rest ih => simp [percent_encode, ih]

theorem hexUpperDigit_roundtrip :
    ∀ d, d < 16 → hexDigitVal (hexUpperDigit d) = d ∧ isHexUpper (hexUpperDigit d) = true := by
  decide

theorem percent_encode_byte (b : Nat) (hb : b < 256) :
    (isUnreservedByte b = true → percent_encode [b] = [b]) ∧
    (isUnreservedByte b = false → ∃ d1 d2, percent_encode [b] = [37, d1, d2] ∧
      isHexUpper d1 = true ∧ isHexUpper d2 = true ∧ hexDigitVal d1 * 16 + hexDigitVal d2 = b) := by
  constructor
  · intro h; simp [percent_encode, h]
  · intro h
    refine ⟨hexUpperDigit (b / 16 % 16), hexUpperDigit (b % 16), by simp [percent_encode, h],
      ?_, ?_, ?_⟩
    · exact (hexUpperDigit_roundtrip _ (Nat.mod_lt _ (by norm_num))).2
    · exact (hexUpperDigit_roundtrip _ (Nat.mod_lt _ (by norm_num))).2
    · have hdiv : b / 16 < 16 := (Nat.div_lt_iff_lt_mul (by norm_num)).mpr hb
      have h1 : b / 16 % 16 = b / 16 := Nat.mod_eq_of_lt hdiv
      have e1 := (hexUpperDigit_roundtrip (b / 16 % 16) (Nat.mod_lt _ (by norm_num))).1
      have e2 := (hexUpperDigit_roundtrip (b % 16) (Nat.mod_lt _ (by norm_num))).1
      have hdm : 16 * (b / 16) + b % 16 = b := Nat.div_add_mod b 16
      omega

set_option maxRecDepth 4000 in
theorem percent_encode_byte_allowed :
    ∀ c, c < 256 → ∀ x ∈ percent_encode [c], allowedOutputByte x = true := by
  decide

theorem percent_encode_allowed (l : Bytes) (hl : ∀ b ∈ l, b < 256) :
    ∀ b ∈ percent_encode l, allowedOutputByte b = true := by
  induction l with
  | nil => intro b hb; simp [percent_encode] at hb
  | cons a rest ih =>
    intro b hb
    have ha : a < 256 := hl a (List.mem_cons_self a rest)
    simp only [percent_encode] at hb
    rcases List.mem_append.mp hb with h | h
    · exact percent_encode_byte_allowed a ha b (by simpa [percent_encode] using h)
    · exact ih (fun c hc => hl c (List.mem_cons_of_mem a hc)) b h

/-- C2: the Canonical Encoder is total and deterministic (it is a
function); over byte strings, unreserved bytes (`A-Z a-z 0-9 - . _ ~`)
pass through unchanged and every other byte becomes `%` followed by the
two uppercase-hex digits of its value (stated by decoding them back);
the output stays inside `[A-Za-z0-9%.\-_~]`; encoding a string of only
unreserved bytes is the identity; and the encoder distributes over
concatenation (so it acts independently on each byte). -/
theorem claim_c2_percent_encode (l : Bytes) (hl : ∀ b ∈ l, b < 256) :
    (∀ b ∈ percent_encode l, allowedOutputByte b = true) ∧
    ((∀ b ∈ l, isUnreservedByte b = true) → percent_encode l = l) ∧
    (∀ l₁ l₂ : Bytes, percent_encode (l₁ ++ l₂) = percent_encode l₁ ++ percent_encode l₂) ∧
    (∀ b, b < 256 →
      (isUnreservedByte b = true → percent_encode [b] = [b]) ∧
      (isUnreservedByte b = false → ∃ d1 d2, percent_encode [b] = [37, d1, d2] ∧
        isHexUpper d1 = true ∧ isHexUpper d2 = true ∧
        hexDigitVal d1 * 16 + hexDigitVal d2 = b)) := by
  refine ⟨percent_encode_allowed l hl, ?_, percent_encode_append, percent_encode_byte⟩
  intro hun
  induction l with
  | nil => rfl
  | cons a rest ih =>
    have ha : isUnreservedByte a = true := hun a (List.mem_cons_self a rest)
    have hrest : percent_encode rest = rest := by
      have := ih (fun c hc => hl c (List.mem_cons_of_mem a hc))
        (fun c hc => hun c (List.mem_cons_of_mem a hc))
      exact this
    simp [percent_encode, ha, hrest]

/-- Witness for C2, at the byte string of `"a b~"`. -/
theorem claim_c2_witness :
    (∀ b ∈ percent_encode (ascii "a b~"), allowedOutputByte b = true) ∧
    ((∀ b ∈ ascii "a b~", isUnreservedByte b = true) → percent_encode (ascii "a b~") = ascii "a b~") ∧
    (∀ l₁ l₂ : Bytes, percent_encode (l₁ ++ l₂) = percent_encode l₁ ++ percent_encode l₂) ∧
    (∀ b, b < 256 →
      (isUnreservedByte b = true → percent_encode [b] = [b]) ∧
      (isUnreservedByte b = false → ∃ d1 d2, percent_encode [b] = [37, d1, d2] ∧
        isHexUpper d1 = true ∧ isHexUpper d2 = true ∧
        hexDigitVal d1 * 16 + hexDigitVal d2 = b)) :=
  claim_c2_percent_encode (ascii "a b~") (by decide)

/-- Witness for C3: the two-parameter lists `[b=2, a=1]` and `[a=1, b=2]`
(distinct keys) sign identically. -/
theorem claim_c3_witness :
    Etrade.generate_oauth_signature (ascii "cs") (ascii "ts") (ascii "GET") (ascii "u")
      [(ascii "b", ascii "2"), (ascii "a", ascii "1")] =
    Etrade.generate_oauth_signature (ascii "cs") (ascii "ts") (ascii "GET") (ascii "u")
      [(ascii "a", ascii "1"), (ascii "b", ascii "2")] :=
  claim_c3_sort_invariance (ascii "cs") (ascii "ts") (ascii "GET") (ascii "u") _ _
    (List.Perm.swap _ _ _) (by decide)

/-! ## Claim theorems: the schema normalizer -/

theorem assembleAccounts_eq (bal : String → Except String Etrade.BalanceResponse)
    (port : String → Except String Etrade.PortfolioResponse) (now : Nat) (sb : Bool)
    (accts : List Etrade.ETradeAccount) :
    Etrade.assembleAccounts bal port now sb accts =
      .ok (accts.map (Etrade.mkAccountSummary bal port now sb)) := by
  induction accts with
  | nil => rfl
  | cons a rest ih =>
    simp only [Etrade.assembleAccounts, Etrade.get_account_details, ih, List.map_cons]
    rfl

/-- C4: when one account's balance sub-call fails, `list_accounts` still
returns that account, with the zero-valued `AccountBalance`; when its
portfolio sub-call fails, with an empty position list; and every entry of
the result is assembled from its own account's sub-calls alone, so the
other accounts are unaffected. -/
theorem claim_c4_partial_failure (accts : List Etrade.ETradeAccount)
    (bal : String → Except String Etrade.BalanceResponse)
    (port : String → Except String Etrade.PortfolioResponse)
    (now : Nat) (sb : Bool) (i : Nat) (a : Etrade.ETradeAccount)
    (ha : accts.get? i = some a) (e : String)
    (hb : bal a.account_id_key = .error e) :
    ∃ l, Etrade.list_accounts (.ok accts) bal port now sb = .ok l ∧
      l.length = accts.length ∧
      (∃ s, l.get? i = some s ∧ s.id = a.account_id ∧
        s.balance = { currency := "USD", total_equity := 0, available_cash := 0,
                      buying_power := 0, locked_cash := 0 } ∧
        (∀ e2, port a.account_id_key = .error e2 → s.positions = [])) ∧
      (∀ j b, accts.get? j = some b →
        l.get? j = some (Etrade.mkAccountSummary bal port now sb b)) ∧
      (∀ b : Etrade.ETradeAccount, ∀ bal2 port2,
        bal2 b.account_id_key = bal b.account_id_key →
        port2 b.account_id_key = port b.account_id_key →
        Etrade.mkAccountSummary bal2 port2 now sb b =
          Etrade.mkAccountSummary bal port now sb b) := by
  refine ⟨accts.map (Etrade.mkAccountSummary bal port now sb), ?_, List.length_map accts _,
    ?_, ?_, ?_⟩
  · exact assembleAccounts_eq bal port now sb accts
  · refine ⟨Etrade.mkAccountSummary bal port now sb a, ?_, rfl, ?_, ?_⟩
    · rw [List.get?_map, ha]; rfl
    · simp [Etrade.mkAccountSummary, Etrade.balanceOf, hb]
    · intro e2 hp
      simp [Etrade.mkAccountSummary, Etrade.positionsOrDefault, Etrade.get_positions, hp]
  · intro j b hj
    rw [List.get?_map, hj]; rfl
  · intro b bal2 port2 hb2 hp2
    simp [Etrade.mkAccountSummary, hb2, hp2]

/-- Witness for C4: two vendor accounts, the first one's balance call
failing and every portfolio call failing. -/
theorem claim_c4_witness :
    ∃ l, Etrade.list_accounts
        (.ok [{ account_id := "id1", account_id_key := "k1", account_name := none },
              { account_id := "id2", account_id_key := "k2", account_name := some "Acct 2" }])
        (fun k => if k = "k1" then .error "boom"
                  else .ok { response := { computed := none } })
        (fun _ => .error "pfail") 0 true = .ok l ∧
      l.length = ([{ account_id := "id1", account_id_key := "k1", account_name := none },
                   { account_id := "id2", account_id_key := "k2", account_name := some "Acct 2" }] :
                    List Etrade.ETradeAccount).length ∧
      (∃ s, l.get? 0 = some s ∧ s.id = "id1" ∧
        s.balance = { currency := "USD", total_equity := 0, available_cash := 0,
                      buying_power := 0, locked_cash := 0 } ∧
        (∀ e2, (.error "pfail" : Except String Etrade.PortfolioResponse) = .error e2 →
          s.positions = [])) ∧
      (∀ j b, ([{ account_id := "id1", account_id_key := "k1", account_name := none },
                { account_id := "id2", account_id_key := "k2", account_name := some "Acct 2" }] :
                 List Etrade.ETradeAccount).get? j = some b →
        l.get? j = some (Etrade.mkAccountSummary
          (fun k => if k = "k1" then .error "boom"
                    else .ok { response := { computed := none } })
          (fun _ => .error "pfail") 0 true b)) ∧
      (∀ b : Etrade.ETradeAccount, ∀ bal2 port2,
        bal2 b.account_id_key =
          (fun k => if k = "k1" then .error "boom"
                    else .ok { response := { computed := none } }) b.account_id_key →
        port2 b.account_id_key =
          (fun _ => (.error "pfail" : Except String Etrade.PortfolioResponse))
            b.account_id_key →
        Etrade.mkAccountSummary bal2 port2 0 true b =
          Etrade.mkAccountSummary
            (fun k => if k = "k1" then .error "boom"
                      else .ok { response := { computed := none } })
            (fun _ => .error "pfail") 0 true b) :=
  claim_c4_partial_failure
    [{ account_id := "id1", account_id_key := "k1", account_name := none },
     { account_id := "id2", account_id_key := "k2", account_name := some "Acct 2" }]
    (fun k => if k = "k1" then .error "boom" else .ok { response := { computed := none } })
    (fun _ => .error "pfail") 0 true 0
    { account_id := "id1", account_id_key := "k1", account_name := none } rfl "boom" rfl

theorem mem_collectPositions {p : Position} {aps : List Etrade.AccountPortfolio}
    (hp : p ∈ Etrade.collectPositions aps) :
    ∃ ap, ap ∈ aps ∧ ∃ pl, ap.position = some pl ∧ ∃ e, e ∈ pl ∧ p = Etrade.mkPosition e := by
  induction aps with
  | nil => simp [Etrade.collectPositions] at hp
  | cons ap rest ih =>
    simp only [Etrade.collectPositions] at hp
    rcases List.mem_append.mp hp with h | h
    · cases hpos : ap.position with
      | none => simp [Etrade.portfolioPositions, hpos] at h
      | some pl =>
        simp only [Etrade.portfolioPositions, hpos] at h
        rcases List.mem_map.mp h with ⟨e, he, hpe⟩
        exact ⟨ap, List.mem_cons_self ap rest, pl, hpos, e, he, hpe.symm⟩
    · rcases ih h with ⟨ap2, hap2, pl, hpl, e, he, hpe⟩
      exact ⟨ap2, List.mem_cons_of_mem ap hap2, pl, hpl, e, he, hpe⟩

theorem collectPositions_all_none (aps : List Etrade.AccountPortfolio)
    (h : ∀ ap ∈ aps, ap.position = none) : Etrade.collectPositions aps = [] := by
  induction aps with
  | nil => rfl
  | cons ap rest ih =>
    have h0 := h ap (List.mem_cons_self ap rest)
    simp [Etrade.collectPositions, Etrade.portfolioPositions, h0,
      ih (fun x hx => h x (List.mem_cons_of_mem ap hx))]

/-- The `current_price` of a normalized position, stated as the
specification's fallback chain: the live quote when present, else the
cost basis when present, else zero. -/
theorem mkPosition_price (e : Etrade.ETradePosition) :
    (Etrade.mkPosition e).current_price =
      (match e.quick.bind Etrade.QuickView.last_trade with
       | some lt => lt
       | none => match e.cost_per_share with
         | some c => c
         | none => 0) := by
  cases hq : e.quick.bind Etrade.QuickView.last_trade with
  | some lt => simp [Etrade.mkPosition, hq, Option.or]
  | none =>
    cases hc : e.cost_per_share with
    | some c => simp [Etrade.mkPosition, hq, hc, Option.or]
    | none => simp [Etrade.mkPosition, hq, hc, Option.or]

/-- C5: on a successful portfolio payload, every returned position comes
from a vendor entry, with `current_price` equal to `Quick.lastTrade` when
present, else `costPerShare` when present, else `0.0`; and when the
nested position list is entirely absent (no `PortfolioResponse` body, no
`AccountPortfolio` array, or no `Position` array in any portfolio),
`get_positions` returns the empty list, not an error. -/
theorem claim_c5_get_positions (resp : Etrade.PortfolioResponse) :
    (∃ l, Etrade.get_positions (.ok resp) = .ok l ∧
      ∀ p ∈ l, ∃ inner aps, resp.response = some inner ∧
        inner.account_portfolio = some aps ∧
        ∃ ap, ap ∈ aps ∧ ∃ pl, ap.position = some pl ∧ ∃ e, e ∈ pl ∧
          p = Etrade.mkPosition e ∧
          p.current_price = (match e.quick.bind Etrade.QuickView.last_trade with
            | some lt => lt
            | none => match e.cost_per_share with
              | some c => c
              | none => 0)) ∧
    ((resp.response = none ∨
      (∃ inner, resp.response = some inner ∧ (inner.account_portfolio = none ∨
        (∃ aps, inner.account_portfolio = some aps ∧ ∀ ap ∈ aps, ap.position = none)))) →
      Etrade.get_positions (.ok resp) = .ok []) := by
  constructor
  · cases hresp : resp.response with
    | none =>
      refine ⟨[], by simp [Etrade.get_positions, hresp], by simp⟩
    | some inner =>
      cases hap : inner.account_portfolio with
      | none =>
        refine ⟨[], by simp [Etrade.get_positions, hresp, hap], by simp⟩
      | some aps =>
        refine ⟨Etrade.collectPositions aps, by simp [Etrade.get_positions, hresp, hap], ?_⟩
        intro p hp
        rcases mem_collectPositions hp with ⟨ap, hmem, pl, hpl, e2, he2, hpe⟩
        exact ⟨inner, aps, rfl, hap, ap, hmem, pl, hpl, e2, he2, hpe,
          hpe ▸ mkPosition_price e2⟩
  · rintro (h | ⟨inner, hi, h2 | ⟨aps, hap, hall⟩⟩)
    · simp [Etrade.get_positions, h]
    · simp [Etrade.get_positions, hi, h2]
    · simp [Etrade.get_positions, hi, hap, collectPositions_all_none aps hall]

/-- Witness for C5: a payload with a portfolio body but no `Position`
array yields the empty list. -/
theorem claim_c5_witness :
    Etrade.get_positions (.ok (Etrade.PortfolioResponse.mk
      (some (Etrade.PortfolioInner.mk (some [Etrade.AccountPortfolio.mk none]))))) = .ok [] :=
  (claim_c5_get_positions (Etrade.PortfolioResponse.mk
      (some (Etrade.PortfolioInner.mk (some [Etrade.AccountPortfolio.mk none]))))).2
    (Or.inr ⟨_, rfl, Or.inr ⟨_, rfl, by simp⟩⟩)

theorem natDigitsGo_ne_nil (fuel n : Nat) : natDigitsGo (fuel + 1) n ≠ [] := by
  simp only [natDigitsGo]
  split
  · simp
  · simp

theorem natStr_ne_empty (n : Nat) : natStr n ≠ "" := by
  intro h
  have hd : (natDigitsGo (n + 1) n).map (fun d => Char.ofNat (48 + d)) = [] :=
    congrArg String.data h
  exact natDigitsGo_ne_nil n n (List.map_eq_nil.mp hd)

theorem intStr_ne_empty (i : Int) : intStr i ≠ "" := by
  cases i with
  | ofNat n => exact natStr_ne_empty n
  | negSucc n =>
    intro h
    have hd : ("-" ++ natStr (n + 1)).data = "".data := congrArg String.data h
    rw [String.data_append] at hd
    have hm : "-".data = ['-'] := rfl
    rw [hm] at hd
    simp at hd

theorem kl_append_ne_empty (s : String) : ("KL" ++ s) ≠ "" := by
  intro h
  have hd := congrArg String.data h
  rw [String.data_append] at hd
  have hm : "KL".data = ['K', 'L'] := rfl
  rw [hm] at hd
  simp at hd

theorem natHex16_length (r : Nat) : (natHex16 r).length = 16 := by
  simp [natHex16, String.length]

/-- C6: whenever the vendor POST succeeds, `submit_order` returns an
order with status `Submitted` and `filled_quantity` zero, whose id is the
first vendor-assigned order id rendered as a decimal string when the
vendor supplies one and the client idempotency token
(`KL` + 16 lowercase hex digits of the random `u64`) otherwise — hence
always non-empty — and whose extensions record that token under
`client_order_id`. -/
theorem claim_c6_submit_order (req : OrderRequest) (rand now : Nat)
    (post : Etrade.PlaceOrderRequest → Except String Etrade.PlaceOrderResponse)
    (respR : Etrade.PlaceOrderResult)
    (hpost : post (Etrade.buildPlaceOrderRequest req
        ("KL" ++ natHex16 (rand % 18446744073709551616))) = .ok { response := respR }) :
    ∃ o, Etrade.submit_order req rand now post = .ok o ∧
      o.status = .Submitted ∧
      o.filled_quantity = 0 ∧
      (∀ x rest2, respR.order_ids = some (x :: rest2) → o.id = intStr x.order_id) ∧
      (respR.order_ids = some [] → o.id = "KL" ++ natHex16 (rand % 18446744073709551616)) ∧
      (respR.order_ids = none → o.id = "KL" ++ natHex16 (rand % 18446744073709551616)) ∧
      o.id ≠ "" ∧
      o.extensions = some [("client_order_id", "KL" ++ natHex16 (rand % 18446744073709551616))] ∧
      (natHex16 (rand % 18446744073709551616)).length = 16 := by
  cases hids : respR.order_ids with
  | none =>
    have hsub : Etrade.submit_order req rand now post =
        .ok { id := "KL" ++ natHex16 (rand % 18446744073709551616)
              request := req, status := .Submitted, created_at := now, updated_at := now
              filled_quantity := 0, average_filled_price := none
              extensions := some [("client_order_id",
                "KL" ++ natHex16 (rand % 18446744073709551616))]
              persona_id := req.persona_id } := by
      simp only [Etrade.submit_order, hpost, hids]
    refine ⟨_, hsub, rfl, rfl, ?_, fun _ => rfl, fun _ => rfl, kl_append_ne_empty _, rfl,
      natHex16_length _⟩
    intro x r2 hcon
    cases hcon
  | some ids =>
    cases ids with
    | nil =>
      have hsub : Etrade.submit_order req rand now post =
          .ok { id := "KL" ++ natHex16 (rand % 18446744073709551616)
                request := req, status := .Submitted, created_at := now, updated_at := now
                filled_quantity := 0, average_filled_price := none
                extensions := some [("client_order_id",
                  "KL" ++ natHex16 (rand % 18446744073709551616))]
                persona_id := req.persona_id } := by
        simp only [Etrade.submit_order, hpost, hids]
      refine ⟨_, hsub, rfl, rfl, ?_, fun _ => rfl, fun _ => rfl, kl_append_ne_empty _, rfl,
        natHex16_length _⟩
      intro x r2 hcon
      simp at hcon
    | cons x rest2 =>
      have hsub : Etrade.submit_order req rand now post =
          .ok { id := intStr x.order_id
                request := req, status := .Submitted, created_at := now, updated_at := now
                filled_quantity := 0, average_filled_price := none
                extensions := some [("client_order_id",
                  "KL" ++ natHex16 (rand % 18446744073709551616))]
                persona_id := req.persona_id } := by
        simp only [Etrade.submit_order, hpost, hids]
      refine ⟨_, hsub, rfl, rfl, ?_, ?_, ?_, intStr_ne_empty _, rfl, natHex16_length _⟩
      · intro x2 r2 h
        obtain ⟨h1, h2⟩ : x = x2 ∧ rest2 = r2 := by
          injection h with h3
          injection h3 with h4 h5
          exact ⟨h4, h5⟩
        rw [← h1]
      · intro h; simp at h
      · intro h; cases h

/-- Witness for C6, matching the specification's pinned example: a market
buy of `AAPL`, quantity 10, with the vendor returning `orderId: 12345`,
yields an order with id `"12345"`, status `Submitted`, and
`filled_quantity` zero. -/
theorem claim_c6_witness :
    ∃ o, Etrade.submit_order
        { symbol_id := "AAPL", side := .Buy, order_type := .Market, quantity := 10,
          limit_price := none, persona_id := "p1" } 7 0
        (fun _ => .ok { response := { order_ids := some [{ order_id := 12345 }] } }) = .ok o ∧
      o.id = "12345" ∧ o.status = .Submitted ∧ o.filled_quantity = 0 := by
  obtain ⟨o, ho, hst, hfq, hid, -, -, -, -, -⟩ := claim_c6_submit_order
    { symbol_id := "AAPL", side := .Buy, order_type := .Market, quantity := 10,
      limit_price := none, persona_id := "p1" } 7 0
    (fun _ => .ok { response := { order_ids := some [{ order_id := 12345 }] } })
    { order_ids := some [{ order_id := 12345 }] } rfl
  refine ⟨o, ho, ?_, hst, hfq⟩
  rw [hid { order_id := 12345 } [] rfl]
  decide

/-! ## Claim theorems: the plugin layer -/

/-- C7 (counterexample): the account list returned by `get_accounts` can
be empty.  With a configured client and the vendor successfully returning
zero accounts, `get_accounts` returns zero accounts — the synthetic error
account only replaces the empty list on failure paths. -/
theorem claim_c7_counterexample :
    (Plugin.get_accounts
        { client := some (Plugin.ETradeClient.new "ck" "cs" "tok" "sec" true)
          orders := [], next_order_id := 1 }
        (.ok []) (fun _ => .error "unused") (fun _ => .error "unused") 0).accounts = [] := rfl

/-- C7 (amended): on an uninitialized session or on total failure of the
vendor account-list call, `get_accounts` returns exactly one synthetic
error account, whose id is `"error"` (hence non-empty) and whose name
embeds the error message; on success it returns exactly the normalized
vendor accounts — so the result can only be empty, or contain an empty
id, when the vendor's own successful payload makes it so. -/
theorem claim_c7_error_account (st : Plugin.BrokerState)
    (listResp : Except String (List Etrade.ETradeAccount))
    (bal : String → Except String Etrade.BalanceResponse)
    (port : String → Except String Etrade.PortfolioResponse) (now : Nat) :
    (st.client = none →
      (Plugin.get_accounts st listResp bal port now).accounts =
        [Plugin.create_error_account "Plugin not initialized or OAuth not completed" now]) ∧
    (∀ c, st.client = some c → ∀ e, listResp = .error e →
      (Plugin.get_accounts st listResp bal port now).accounts =
        [Plugin.create_error_account e now]) ∧
    (∀ c, st.client = some c → ∀ accts, listResp = .ok accts →
      (Plugin.get_accounts st listResp bal port now).accounts =
        accts.map (Etrade.mkAccountSummary bal port now c.is_sandbox)) ∧
    (∀ e, (Plugin.create_error_account e now).id = "error" ∧
      (Plugin.create_error_account e now).id ≠ "" ∧
      (Plugin.create_error_account e now).name = "Error: " ++ e) := by
  refine ⟨?_, ?_, ?_, ?_⟩
  · intro h
    simp [Plugin.get_accounts, h]
  · intro c hc e he
    subst he
    simp only [Plugin.get_accounts, hc]
    rfl
  · intro c hc accts ha
    subst ha
    simp only [Plugin.get_accounts, hc]
    rw [show Etrade.list_accounts (.ok accts) bal port now c.is_sandbox =
          Etrade.assembleAccounts bal port now c.is_sandbox accts from rfl,
        assembleAccounts_eq]
  · intro e
    exact ⟨rfl, by simp [Plugin.create_error_account], rfl⟩

/-- Witness for C7: on the fresh (uninitialized) state the single
synthetic error account is returned. -/
theorem claim_c7_witness :
    (Plugin.get_accounts Plugin.BrokerState.new (.ok []) (fun _ => .error "unused")
        (fun _ => .error "unused") 0).accounts =
      [Plugin.create_error_account "Plugin not initialized or OAuth not completed" 0] :=
  (claim_c7_error_account Plugin.BrokerState.new (.ok []) (fun _ => .error "unused")
    (fun _ => .error "unused") 0).1 rfl

/-- C8: with the session uninitialized (no client configured), each
operational entry point returns its error-shaped default — `submit_order`
a `Rejected` order carrying the error message in its extensions and
leaving the state untouched, `get_positions` the empty list,
`get_accounts` the single synthetic error account — and each result is
the same under any network oracle, i.e. no network call influences it. -/
theorem claim_c8_uninitialized (st : Plugin.BrokerState) (h : st.client = none)
    (req : Plugin.SubmitOrderRequest) (preq : Plugin.GetPositionsRequest)
    (rand now : Nat)
    (post post2 : Etrade.PlaceOrderRequest → Except String Etrade.PlaceOrderResponse)
    (listResp listResp2 : Except String (List Etrade.ETradeAccount))
    (bal bal2 : String → Except String Etrade.BalanceResponse)
    (port port2 : String → Except String Etrade.PortfolioResponse) :
    ((Plugin.submit_order st req rand post now).2.order.status = .Rejected ∧
     (Plugin.submit_order st req rand post now).2.order.extensions =
       some [("error", "Plugin not initialized")] ∧
     (Plugin.submit_order st req rand post now).1 = st ∧
     Plugin.submit_order st req rand post now = Plugin.submit_order st req rand post2 now) ∧
    (Plugin.get_positions st preq port = { positions := [] } ∧
     Plugin.get_positions st preq port = Plugin.get_positions st preq port2) ∧
    ((Plugin.get_accounts st listResp bal port now).accounts =
       [Plugin.create_error_account "Plugin not initialized or OAuth not completed" now] ∧
     Plugin.get_accounts st listResp bal port now =
       Plugin.get_accounts st listResp2 bal2 port2 now) := by
  refine ⟨⟨?_, ?_, ?_, ?_⟩, ⟨?_, ?_⟩, ⟨?_, ?_⟩⟩ <;>
    simp [Plugin.submit_order, Plugin.get_positions, Plugin.get_accounts,
      Plugin.create_error_order, h]

/-- Witness for C8, on the fresh state, with a market buy of `AAPL`. -/
theorem claim_c8_witness :
    ((Plugin.submit_order Plugin.BrokerState.new
        (Plugin.SubmitOrderRequest.mk "a1"
          (OrderRequest.mk "AAPL" OrderSide.Buy OrderType.Market 10 none "p1"))
        7 (fun _ => .error "net") 0).2.order.status = .Rejected ∧
     (Plugin.submit_order Plugin.BrokerState.new
        (Plugin.SubmitOrderRequest.mk "a1"
          (OrderRequest.mk "AAPL" OrderSide.Buy OrderType.Market 10 none "p1"))
        7 (fun _ => .error "net") 0).2.order.extensions =
       some [("error", "Plugin not initialized")] ∧
     (Plugin.submit_order Plugin.BrokerState.new
        (Plugin.SubmitOrderRequest.mk "a1"
          (OrderRequest.mk "AAPL" OrderSide.Buy OrderType.Market 10 none "p1"))
        7 (fun _ => .error "net") 0).1 = Plugin.BrokerState.new ∧
     Plugin.submit_order Plugin.BrokerState.new
        (Plugin.SubmitOrderRequest.mk "a1"
          (OrderRequest.mk "AAPL" OrderSide.Buy OrderType.Market 10 none "p1"))
        7 (fun _ => .error "net") 0 =
       Plugin.submit_order Plugin.BrokerState.new
        (Plugin.SubmitOrderRequest.mk "a1"
          (OrderRequest.mk "AAPL" OrderSide.Buy OrderType.Market 10 none "p1"))
        7 (fun _ => .ok (Etrade.PlaceOrderResponse.mk (Etrade.PlaceOrderResult.mk none))) 0) ∧
    (Plugin.get_positions Plugin.BrokerState.new (Plugin.GetPositionsRequest.mk "a1")
        (fun _ => .error "net") = Plugin.GetPositionsResponse.mk [] ∧
     Plugin.get_positions Plugin.BrokerState.new (Plugin.GetPositionsRequest.mk "a1")
        (fun _ => .error "net") =
       Plugin.get_positions Plugin.BrokerState.new (Plugin.GetPositionsRequest.mk "a1")
        (fun _ => .ok (Etrade.PortfolioResponse.mk none))) ∧
    ((Plugin.get_accounts Plugin.BrokerState.new (.error "net") (fun _ => .error "net")
        (fun _ => .error "net") 0).accounts =
       [Plugin.create_error_account "Plugin not initialized or OAuth not completed" 0] ∧
     Plugin.get_accounts Plugin.BrokerState.new (.error "net") (fun _ => .error "net")
        (fun _ => .error "net") 0 =
       Plugin.get_accounts Plugin.BrokerState.new (.ok []) (fun _ => .error "net")
        (fun _ => .error "net") 0) :=
  claim_c8_uninitialized Plugin.BrokerState.new rfl
    (Plugin.SubmitOrderRequest.mk "a1"
      (OrderRequest.mk "AAPL" OrderSide.Buy OrderType.Market 10 none "p1"))
    (Plugin.GetPositionsRequest.mk "a1") 7 0
    (fun _ => .error "net")
    (fun _ => .ok (Etrade.PlaceOrderResponse.mk (Etrade.PlaceOrderResult.mk none)))
    (.error "net") (.ok []) (fun _ => .error "net") (fun _ => .error "net")
    (fun _ => .error "net") (fun _ => .ok (Etrade.PortfolioResponse.mk none))

/-- C9 (counterexample): a malformed request payload does escape the
public boundary as a failure: `parse_request` panics (modelled as
`Except.error`) before the operation can return a domain object. -/
theorem claim_c9_counterexample :
    Plugin.get_positions_raw none Plugin.BrokerState.new (fun _ => .error "net") =
      .error "Failed to parse request" := rfl

/-- C9 (amended): for every well-formed (parseable) request payload, each
public operation — initialize, get_accounts, get_positions, submit_order
— returns a structurally valid domain response, never a failure, whatever
the session state and whatever the vendor oracles return. -/
theorem claim_c9_total_on_parsed (cfg : Plugin.InitConfig)
    (greq : Plugin.GetAccountsRequest) (preq : Plugin.GetPositionsRequest)
    (sreq : Plugin.SubmitOrderRequest) (st : Plugin.BrokerState)
    (listResp : Except String (List Etrade.ETradeAccount))
    (bal : String → Except String Etrade.BalanceResponse)
    (port : String → Except String Etrade.PortfolioResponse)
    (rand now : Nat)
    (post : Etrade.PlaceOrderRequest → Except String Etrade.PlaceOrderResponse) :
    (∃ r, Plugin.initializeBrokerRaw (some cfg) st = .ok r) ∧
    (∃ r, Plugin.get_accounts_raw (some greq) st listResp bal port now = .ok r) ∧
    (∃ r, Plugin.get_positions_raw (some preq) st port = .ok r) ∧
    (∃ r, Plugin.submit_order_raw (some sreq) st rand post now = .ok r) :=
  ⟨⟨_, rfl⟩, ⟨_, rfl⟩, ⟨_, rfl⟩, ⟨_, rfl⟩⟩

/-- C10 (counterexample): with the consumer key and secret absent
(extracted as empty strings), `initialize` does not return a success
indication, does not request interactive OAuth, and reports no
authorization URL — contradicting the claim for this incomplete
credential set. -/
theorem claim_c10_counterexample :
    (Plugin.initializeBroker
        { consumer_key := "", consumer_secret := "", oauth_token := none,
          oauth_token_secret := none, is_sandbox := true }
        Plugin.BrokerState.new).2.success = false ∧
    (Plugin.initializeBroker
        { consumer_key := "", consumer_secret := "", oauth_token := none,
          oauth_token_secret := none, is_sandbox := true }
        Plugin.BrokerState.new).2.requires_auth = false ∧
    (Plugin.initializeBroker
        { consumer_key := "", consumer_secret := "", oauth_token := none,
          oauth_token_secret := none, is_sandbox := true }
        Plugin.BrokerState.new).2.auth_url = none :=
  ⟨rfl, rfl, rfl⟩

/-- C10 (amended): provided the consumer key and secret are present
(non-empty), initialization configures a client exactly when the full
OAuth token pair is also present; with the token pair incomplete the
state is unchanged (the session stays uninitialized) while the call still
succeeds, reporting that interactive OAuth authorization is required at
the fixed authorization URL.  When the consumer key or secret is missing
the call fails and the state is unchanged.  In every case a client is
configured only when all four credentials are present. -/
theorem claim_c10_initialization (cfg : Plugin.InitConfig) (st : Plugin.BrokerState) :
    (cfg.consumer_key ≠ "" → cfg.consumer_secret ≠ "" →
      ((∀ t s, cfg.oauth_token = some t → cfg.oauth_token_secret = some s →
        (Plugin.initializeBroker cfg st).1.client =
          some (Plugin.ETradeClient.new cfg.consumer_key cfg.consumer_secret t s
            cfg.is_sandbox) ∧
        (Plugin.initializeBroker cfg st).2.success = true ∧
        (Plugin.initializeBroker cfg st).2.requires_auth = false) ∧
      ((cfg.oauth_token = none ∨ cfg.oauth_token_secret = none) →
        (Plugin.initializeBroker cfg st).1 = st ∧
        (Plugin.initializeBroker cfg st).2.success = true ∧
        (Plugin.initializeBroker cfg st).2.requires_auth = true ∧
        (Plugin.initializeBroker cfg st).2.auth_url =
          some "https://us.etrade.com/e/t/etws/authorize"))) ∧
    ((cfg.consumer_key = "" ∨ cfg.consumer_secret = "") →
      (Plugin.initializeBroker cfg st).1 = st ∧
      (Plugin.initializeBroker cfg st).2.success = false) ∧
    ((Plugin.initializeBroker cfg st).1.client ≠ st.client →
      cfg.consumer_key ≠ "" ∧ cfg.consumer_secret ≠ "" ∧
      ∃ t s, cfg.oauth_token = some t ∧ cfg.oauth_token_secret = some s) := by
  refine ⟨?_, ?_, ?_⟩
  · intro hk hs
    constructor
    · intro t s ht hsec
      simp [Plugin.initializeBroker, hk, hs, ht, hsec]
    · rintro (h | h) <;>
        rcases htok : cfg.oauth_token with - | t <;>
        rcases hsec : cfg.oauth_token_secret with - | s <;>
        simp_all [Plugin.initializeBroker, hk, hs]
  · rintro (h | h) <;> simp [Plugin.initializeBroker, h]
  · intro hch
    by_cases hk : cfg.consumer_key = ""
    · exact absurd (by simp [Plugin.initializeBroker, hk]) hch
    · by_cases hs : cfg.consumer_secret = ""
      · exact absurd (by simp [Plugin.initializeBroker, hs]) hch
      · rcases htok : cfg.oauth_token with - | t
        · exact absurd (by simp [Plugin.initializeBroker, hk, hs, htok]) hch
        · rcases hsec : cfg.oauth_token_secret with - | s
          · exact absurd (by simp [Plugin.initializeBroker, hk, hs, htok, hsec]) hch
          · exact ⟨hk, hs, t, s, rfl, rfl⟩

/-- Witness for C10: consumer key and secret present, token pair absent:
the state is unchanged, the call succeeds and requests interactive OAuth
at the fixed URL. -/
theorem claim_c10_witness :
    (Plugin.initializeBroker
        { consumer_key := "ck", consumer_secret := "cs", oauth_token := none,
          oauth_token_secret := none, is_sandbox := true }
        Plugin.BrokerState.new).1 = Plugin.BrokerState.new ∧
    (Plugin.initializeBroker
        { consumer_key := "ck", consumer_secret := "cs", oauth_token := none,
          oauth_token_secret := none, is_sandbox := true }
        Plugin.BrokerState.new).2.success = true ∧
    (Plugin.initializeBroker
        { consumer_key := "ck", consumer_secret := "cs", oauth_token := none,
          oauth_token_secret := none, is_sandbox := true }
        Plugin.BrokerState.new).2.requires_auth = true ∧
    (Plugin.initializeBroker
        { consumer_key := "ck", consumer_secret := "cs", oauth_token := none,
          oauth_token_secret := none, is_sandbox := true }
        Plugin.BrokerState.new).2.auth_url = some "https://us.etrade.com/e/t/etws/authorize" :=
  ((claim_c10_initialization
      { consumer_key := "ck", consumer_secret := "cs", oauth_token := none,
        oauth_token_secret := none, is_sandbox := true }
      Plugin.BrokerState.new).1 (by decide) (by decide)).2 (Or.inl rfl)

end BrokerEtrade
